import Mathlib

/-!
Shallow embedding of the go-bank transfer engine.

The embedding models the code of:
  internal/usecase/transfer/service.go        (transferService.Create, GetByUserID)
  internal/domain/entity  (Account, Transaction, Transfer, CanDebit, CanCredit)
  internal/adapter/repository/postgres        (account_repo.go and the transfer /
                                               transaction repositories)
  internal/infrastructure/database            (PostgresDB.WithTransaction)

Modelling choices:
  * UUIDs are modelled as natural numbers; timestamps as natural numbers.
  * shopspring decimal.Decimal is modelled by the rationals: decimal values
    embed in the rationals and Add, Sub, LessThanOrEqual, GreaterThanOrEqual
    agree with the rational operations.  The result of the library call
    decimal.NewFromString on the Amount field of the input is modelled as an
    Option Rat field (none = parse failure) since the parser itself is
    library code, not repository code.
  * The database is a triple of row lists (accounts, transfers, transactions);
    the SQL statements of the repositories are modelled row by row: find by
    primary key, append on INSERT, map on UPDATE.
  * Store and infrastructure failures are injected through a StoreFaults
    record carrying one flag per store call site of Create.
  * Values the code draws from the environment (uuid.New, time.Now) are
    passed in explicitly through a FreshData record.
  * WithTransaction mirrors PostgresDB.WithTransaction: the body runs against
    the state; on error the pre-state is kept (Rollback), on success the
    mutated state is kept (Commit).
  * Each call to accountRepo.GetByIDForUpdate (the SELECT ... FOR UPDATE
    row-lock query) is recorded, in order, in a lock trace.
-/

/-- Account, transfer and transaction identifiers (uuid.UUID in the source). -/
abbrev UUID := Nat

/-- Currency: the closed set USD, EUR, GBP. -/
inductive Currency
  | usd
  | eur
  | gbp
deriving DecidableEq, Repr

/-- AccountStatus: active, inactive, frozen. -/
inductive AccountStatus
  | active
  | inactive
  | frozen
deriving DecidableEq, Repr

/-- TransactionType: credit or debit. -/
inductive TransactionType
  | credit
  | debit
deriving DecidableEq, Repr

/-- TransferStatus: pending, completed, failed. -/
inductive TransferStatus
  | pending
  | completed
  | failed
deriving DecidableEq, Repr

/-- entity.Account (fields relevant to the transfer engine). -/
structure Account where
  id : UUID
  userID : UUID
  accountNumber : String
  currency : Currency
  balance : Rat
  status : AccountStatus
deriving DecidableEq, Repr

/-- entity.Account.CanDebit: status is active and balance is at least the amount. -/
def Account.canDebit (a : Account) (amount : Rat) : Bool :=
  decide (a.status = AccountStatus.active) && decide (amount ≤ a.balance)

/-- entity.Account.CanCredit: status is active. -/
def Account.canCredit (a : Account) : Bool :=
  decide (a.status = AccountStatus.active)

/-- entity.Transaction: one immutable ledger entry. -/
structure Transaction where
  id : UUID
  accountID : UUID
  type : TransactionType
  amount : Rat
  balanceAfter : Rat
  description : String
  referenceID : Option UUID
  createdAt : Nat
deriving DecidableEq, Repr

/-- entity.Transfer. -/
structure Transfer where
  id : UUID
  idempotencyKey : Option String
  fromAccountID : UUID
  toAccountID : UUID
  amount : Rat
  currency : Currency
  status : TransferStatus
  createdAt : Nat
  completedAt : Option Nat
deriving DecidableEq, Repr

/-- The database state: the three row stores the transfer engine touches. -/
structure DBState where
  accounts : List Account
  transfers : List Transfer
  transactions : List Transaction
deriving DecidableEq, Repr

/-- SELECT from accounts WHERE id equals the key (GetByID / GetByIDForUpdate
row retrieval; returns none when no row matches, as the repository maps
pgx.ErrNoRows to a nil account). -/
def getAccount (st : DBState) (id : UUID) : Option Account :=
  st.accounts.find? (fun a => a.id == id)

/-- SELECT from transfers WHERE id equals the key (transferRepository.GetByID). -/
def getTransferByID (st : DBState) (id : UUID) : Option Transfer :=
  st.transfers.find? (fun t => t.id == id)

/-- SELECT from transfers WHERE idempotency_key equals the key
(transferRepository.GetByIdempotencyKey; none when no row matches). -/
def getTransferByIdemKey (st : DBState) (key : String) : Option Transfer :=
  st.transfers.find? (fun t => t.idempotencyKey == some key)

/-- UPDATE accounts SET balance WHERE id equals the key
(accountRepository.UpdateBalance). -/
def updateBalance (st : DBState) (id : UUID) (newBalance : Rat) : DBState :=
  { st with accounts :=
      st.accounts.map (fun a => if a.id == id then { a with balance := newBalance } else a) }

/-- INSERT INTO transfers (transferRepository.Create). -/
def insertTransfer (st : DBState) (t : Transfer) : DBState :=
  { st with transfers := st.transfers ++ [t] }

/-- INSERT INTO transactions (transactionRepository.Create). -/
def insertTransaction (st : DBState) (tx : Transaction) : DBState :=
  { st with transactions := st.transactions ++ [tx] }

/-- UPDATE transfers SET status, completed_at WHERE id equals the key
(transferRepository.UpdateStatus). -/
def updateTransferStatus (st : DBState) (id : UUID) (status : TransferStatus)
    (completedAt : Option Nat) : DBState :=
  { st with transfers :=
      st.transfers.map (fun t =>
        if t.id == id then { t with status := status, completedAt := completedAt } else t) }

/-- The typed failures of internal/pkg/apperror used by the transfer engine;
internal stands for any wrapped store or infrastructure error. -/
inductive AppError
  | internal
  | invalidAmount
  | sameAccount
  | accountNotFound
  | forbidden
  | currencyMismatch
  | insufficientBalance
  | accountInactive
  | transferNotFound
deriving DecidableEq, Repr

/-- Failure injection: one flag per store call site of transferService.Create,
in program order.  A set flag makes that call return a store error, which the
service wraps as an internal failure. -/
structure StoreFaults where
  idemLookup : Bool
  getFrom : Bool
  getTo : Bool
  createTransfer : Bool
  updateFromBalance : Bool
  updateToBalance : Bool
  createDebit : Bool
  createCredit : Bool
  updateStatus : Bool
deriving DecidableEq, Repr

/-- No store call fails. -/
def noFaults : StoreFaults :=
  ⟨false, false, false, false, false, false, false, false, false⟩

/-- Values the code draws from the environment during one Create invocation:
uuid.New for the transfer and the two transactions, time.Now for the
creation and completion timestamps. -/
structure FreshData where
  transferID : UUID
  debitTxID : UUID
  creditTxID : UUID
  transferCreatedAt : Nat
  debitCreatedAt : Nat
  creditCreatedAt : Nat
  completedAt : Nat
deriving DecidableEq, Repr

/-- entity.CreateTransferInput.  The amount field holds the result of
decimal.NewFromString on the request amount string (none = unparsable). -/
structure CreateTransferInput where
  fromAccountID : UUID
  toAccountID : UUID
  amount : Option Rat
  idempotencyKey : String
deriving DecidableEq, Repr

/-- Decidable equality for Except, by cases on the two constructors. -/
instance instDecEqExcept {ε α : Type} [DecidableEq ε] [DecidableEq α] :
    DecidableEq (Except ε α)
  | .error e, .error f =>
    if h : e = f then .isTrue (by rw [h]) else .isFalse (by simp [h])
  | .error _, .ok _ => .isFalse (by simp)
  | .ok _, .error _ => .isFalse (by simp)
  | .ok a, .ok b =>
    if h : a = b then .isTrue (by rw [h]) else .isFalse (by simp [h])

/-- The outcome of one Create invocation: the post-state of the store, the
trace of row-lock acquisitions (GetByIDForUpdate calls, in order), and the
returned transfer or typed failure. -/
structure CreateResult where
  state : DBState
  locks : List UUID
  result : Except AppError Transfer
deriving DecidableEq, Repr

/-- The function passed by transferService.Create to WithTransaction: the body
of the atomic scope.  It mirrors service.go lines 63..155 statement by
statement, threading the transactional state and recording each
GetByIDForUpdate call in the lock trace. -/
def createTxBody (faults : StoreFaults) (fresh : FreshData) (userID : UUID)
    (input : CreateTransferInput) (amount : Rat) (st : DBState) :
    List UUID × Except AppError (DBState × Transfer) :=
  let locks1 := [input.fromAccountID]
  if faults.getFrom then (locks1, .error .internal) else
  match getAccount st input.fromAccountID with
  | none => (locks1, .error .accountNotFound)
  | some fromAccount =>
    if fromAccount.userID ≠ userID then (locks1, .error .forbidden) else
    let locks2 := locks1 ++ [input.toAccountID]
    if faults.getTo then (locks2, .error .internal) else
    match getAccount st input.toAccountID with
    | none => (locks2, .error .accountNotFound)
    | some toAccount =>
      if fromAccount.currency ≠ toAccount.currency then (locks2, .error .currencyMismatch) else
      if ¬ fromAccount.canDebit amount then (locks2, .error .insufficientBalance) else
      if ¬ toAccount.canCredit then (locks2, .error .accountInactive) else
      let idemKey : Option String :=
        if input.idempotencyKey ≠ "" then some input.idempotencyKey else none
      let transfer : Transfer :=
        { id := fresh.transferID
          idempotencyKey := idemKey
          fromAccountID := input.fromAccountID
          toAccountID := input.toAccountID
          amount := amount
          currency := fromAccount.currency
          status := .pending
          createdAt := fresh.transferCreatedAt
          completedAt := none }
      if faults.createTransfer then (locks2, .error .internal) else
      let st1 := insertTransfer st transfer
      let newFromBalance := fromAccount.balance - amount
      if faults.updateFromBalance then (locks2, .error .internal) else
      let st2 := updateBalance st1 fromAccount.id newFromBalance
      let newToBalance := toAccount.balance + amount
      if faults.updateToBalance then (locks2, .error .internal) else
      let st3 := updateBalance st2 toAccount.id newToBalance
      let debitTx : Transaction :=
        { id := fresh.debitTxID
          accountID := fromAccount.id
          type := .debit
          amount := amount
          balanceAfter := newFromBalance
          description := "Transfer to account " ++ toAccount.accountNumber
          referenceID := some transfer.id
          createdAt := fresh.debitCreatedAt }
      if faults.createDebit then (locks2, .error .internal) else
      let st4 := insertTransaction st3 debitTx
      let creditTx : Transaction :=
        { id := fresh.creditTxID
          accountID := toAccount.id
          type := .credit
          amount := amount
          balanceAfter := newToBalance
          description := "Transfer from account " ++ fromAccount.accountNumber
          referenceID := some transfer.id
          createdAt := fresh.creditCreatedAt }
      if faults.createCredit then (locks2, .error .internal) else
      let st5 := insertTransaction st4 creditTx
      if faults.updateStatus then (locks2, .error .internal) else
      let st6 := updateTransferStatus st5 transfer.id .completed (some fresh.completedAt)
      (locks2, .ok (st6, { transfer with status := .completed,
                                         completedAt := some fresh.completedAt }))

/-- PostgresDB.WithTransaction: run the body against the current state; if the
body returns an error the transaction is rolled back (the pre-state is kept)
and the error is returned; otherwise the mutated state is committed. -/
def withTransaction (st : DBState)
    (body : DBState → List UUID × Except AppError (DBState × Transfer)) : CreateResult :=
  match body st with
  | (locks, .error e) => ⟨st, locks, .error e⟩
  | (locks, .ok (st1, t)) => ⟨st1, locks, .ok t⟩

/-- The part of transferService.Create after the idempotency fast path
(service.go lines 49..161): amount validation, same-account check, then the
atomic scope. -/
def createMain (faults : StoreFaults) (fresh : FreshData) (userID : UUID)
    (input : CreateTransferInput) (st : DBState) : CreateResult :=
  match input.amount with
  | none => ⟨st, [], .error .invalidAmount⟩
  | some amount =>
    if amount ≤ 0 then ⟨st, [], .error .invalidAmount⟩
    else if input.fromAccountID = input.toAccountID then ⟨st, [], .error .sameAccount⟩
    else withTransaction st (createTxBody faults fresh userID input amount)

/-- transferService.Create.  Mirrors service.go lines 38..162: when a
non-empty idempotency key is supplied it is looked up first and a hit is
returned unchanged; otherwise the validation and the atomic scope run. -/
def create (faults : StoreFaults) (fresh : FreshData) (userID : UUID)
    (input : CreateTransferInput) (st : DBState) : CreateResult :=
  if input.idempotencyKey ≠ "" then
    if faults.idemLookup then ⟨st, [], .error .internal⟩
    else
      match getTransferByIdemKey st input.idempotencyKey with
      | some t => ⟨st, [], .ok t⟩
      | none => createMain faults fresh userID input st
  else createMain faults fresh userID input st

/-- The join condition of transferRepository.GetByUserID: the transfer touches
some account row owned by the user (JOIN accounts a ON t.from_account_id = a.id
OR t.to_account_id = a.id WHERE a.user_id equals the user). -/
def touchesUser (st : DBState) (userID : UUID) (t : Transfer) : Bool :=
  st.accounts.any (fun a =>
    a.userID == userID && (t.fromAccountID == a.id || t.toAccountID == a.id))

/-- ORDER BY created_at DESC: newer (larger created_at) rows come first. -/
def newerFirst (a b : Transfer) : Prop :=
  b.createdAt ≤ a.createdAt

instance : DecidableRel newerFirst := fun a b =>
  inferInstanceAs (Decidable (b.createdAt ≤ a.createdAt))

instance : IsTotal Transfer newerFirst :=
  ⟨fun a b => (Nat.le_total b.createdAt a.createdAt).imp id id⟩

instance : IsTrans Transfer newerFirst :=
  ⟨fun _ _ _ h1 h2 => Nat.le_trans h2 h1⟩

/-- transferRepository.GetByUserID: SELECT DISTINCT the transfers joined to an
owned account, ORDER BY created_at DESC, LIMIT and OFFSET.  Rows are stored
once per transfer, so DISTINCT is the filter below; the sort models the
ORDER BY (ties are left in an unspecified but fixed order). -/
def repoGetTransfersByUserID (st : DBState) (userID : UUID) (limit offset : Nat) :
    List Transfer :=
  ((((st.transfers.filter (touchesUser st userID)).insertionSort newerFirst).drop
      offset).take limit)

/-- transferService.GetByUserID (service.go lines 190..205): clamp page to at
least 1, replace a pageSize outside 1..100 by 10, compute the offset, read the
page from the repository and return it together with int64(len(transfers)).
The fault flag injects a repository read error, wrapped as internal. -/
def getByUserID (fault : Bool) (st : DBState) (userID : UUID) (page pageSize : Int) :
    Except AppError (List Transfer × Int) :=
  let page1 := if page < 1 then 1 else page
  let pageSize1 := if pageSize < 1 || pageSize > 100 then 10 else pageSize
  let offset := (page1 - 1) * pageSize1
  if fault then .error .internal
  else
    let transfers := repoGetTransfersByUserID st userID pageSize1.toNat offset.toNat
    .ok (transfers, (transfers.length : Int))

/-- The pending transfer record built by entity.NewTransfer inside the atomic
scope of Create, as a function of the injected fresh values, the input and the
source currency. -/
def pendingTransferOf (fr : FreshData) (inp : CreateTransferInput) (q : Rat)
    (cur : Currency) : Transfer :=
  { id := fr.transferID
    idempotencyKey := if inp.idempotencyKey ≠ "" then some inp.idempotencyKey else none
    fromAccountID := inp.fromAccountID
    toAccountID := inp.toAccountID
    amount := q
    currency := cur
    status := .pending
    createdAt := fr.transferCreatedAt
    completedAt := none }

/-- The transfer value returned by a successful Create: the pending record
with status completed and the completion timestamp set. -/
def completedTransferOf (fr : FreshData) (inp : CreateTransferInput) (q : Rat)
    (cur : Currency) : Transfer :=
  { pendingTransferOf fr inp q cur with
      status := .completed, completedAt := some fr.completedAt }

/-- The debit ledger entry appended by a successful Create. -/
def debitTxOf (fr : FreshData) (fa ta : Account) (q : Rat) : Transaction :=
  { id := fr.debitTxID
    accountID := fa.id
    type := .debit
    amount := q
    balanceAfter := fa.balance - q
    description := "Transfer to account " ++ ta.accountNumber
    referenceID := some fr.transferID
    createdAt := fr.debitCreatedAt }

/-- The credit ledger entry appended by a successful Create. -/
def creditTxOf (fr : FreshData) (fa ta : Account) (q : Rat) : Transaction :=
  { id := fr.creditTxID
    accountID := ta.id
    type := .credit
    amount := q
    balanceAfter := ta.balance + q
    description := "Transfer from account " ++ fa.accountNumber
    referenceID := some fr.transferID
    createdAt := fr.creditCreatedAt }

/-- The committed post-state of a successful (executing) Create, written as
the composition of the store writes the atomic scope performs, in program
order. -/
def execState (fr : FreshData) (inp : CreateTransferInput) (q : Rat)
    (fa ta : Account) (st : DBState) : DBState :=
  updateTransferStatus
    (insertTransaction
      (insertTransaction
        (updateBalance
          (updateBalance (insertTransfer st (pendingTransferOf fr inp q fa.currency))
            fa.id (fa.balance - q))
          ta.id (ta.balance + q))
        (debitTxOf fr fa ta q))
      (creditTxOf fr fa ta q))
    fr.transferID .completed (some fr.completedAt)

/-- The number of transfers in the store that touch an account owned by the
user: the true count of rows matching the GetByUserID join, before paging. -/
def matchingTransfers (st : DBState) (userID : UUID) : List Transfer :=
  st.transfers.filter (touchesUser st userID)

/-! Concrete fixtures used by witnesses and counterexamples. -/

/-- A checking account of user 10 holding 100 USD. -/
def accX : Account := ⟨1, 10, "AX", .usd, 100, .active⟩

/-- A checking account of user 20 holding 0 USD. -/
def accY : Account := ⟨2, 20, "AY", .usd, 0, .active⟩

/-- A store holding the two accounts and nothing else. -/
def stW : DBState := ⟨[accX, accY], [], []⟩

/-- Fresh identifiers and timestamps for one invocation. -/
def frW : FreshData := ⟨100, 101, 102, 5, 6, 7, 8⟩

/-- A transfer already stored under idempotency key k1. -/
def tPrev : Transfer := ⟨50, some "k1", 1, 2, 40, .usd, .completed, 3, some 4⟩

/-- The two accounts plus the stored transfer under key k1. -/
def stPrev : DBState := ⟨[accX, accY], [tPrev], []⟩

/-- The completed transfer produced by running 40 USD from account 1 to
account 2 under key k1 with the fresh values of frW. -/
def tDone : Transfer := ⟨100, some "k1", 1, 2, 40, .usd, .completed, 5, some 8⟩

/-- One stored transfer from account 1 to account 2, numbered i. -/
def mkListedTransfer (i : Nat) : Transfer :=
  ⟨i, none, 1, 2, 1, .usd, .completed, i, some i⟩

/-- A store where user 10 owns account 1 and eleven transfers touch it. -/
def stList : DBState :=
  ⟨[accX], (List.range 11).map (fun i => mkListedTransfer (i + 1)), []⟩

/-! Helper lemmas about the store operations. -/

theorem accounts_insertTransfer (st : DBState) (t : Transfer) :
    (insertTransfer st t).accounts = st.accounts := rfl

theorem accounts_insertTransaction (st : DBState) (tx : Transaction) :
    (insertTransaction st tx).accounts = st.accounts := rfl

theorem accounts_updateTransferStatus (st : DBState) (id : UUID) (s : TransferStatus)
    (c : Option Nat) : (updateTransferStatus st id s c).accounts = st.accounts := rfl

theorem getAccount_updateBalance_ne (st : DBState) (id : UUID) (b : Rat) (id' : UUID)
    (h : id' ≠ id) : getAccount (updateBalance st id b) id' = getAccount st id' := by
  unfold getAccount updateBalance
  rw [List.find?_map]
  have hcomp : ((fun a : Account => a.id == id') ∘
      (fun a : Account => if a.id == id then { a with balance := b } else a))
      = (fun a : Account => a.id == id') := by
    funext a
    by_cases ha : a.id = id <;> simp [Function.comp, ha]
  rw [hcomp]
  rcases hf : List.find? (fun a : Account => a.id == id') st.accounts with _ | a0
  · rfl
  · have ha0 : a0.id = id' := by simpa using List.find?_some hf
    simp [Option.map, ha0, h]

theorem getAccount_updateBalance_eq (st : DBState) (id : UUID) (b : Rat) :
    getAccount (updateBalance st id b) id
      = (getAccount st id).map (fun a => { a with balance := b }) := by
  unfold getAccount updateBalance
  rw [List.find?_map]
  have hcomp : ((fun a : Account => a.id == id) ∘
      (fun a : Account => if a.id == id then { a with balance := b } else a))
      = (fun a : Account => a.id == id) := by
    funext a
    by_cases ha : a.id = id <;> simp [Function.comp, ha]
  rw [hcomp]
  rcases hf : List.find? (fun a : Account => a.id == id) st.accounts with _ | a0
  · rfl
  · have ha0 : a0.id = id := by simpa using List.find?_some hf
    simp [Option.map, ha0]

theorem withTransaction_cases (st : DBState)
    (body : DBState → List UUID × Except AppError (DBState × Transfer)) :
    (∃ locks e, body st = (locks, .error e) ∧
       withTransaction st body = ⟨st, locks, .error e⟩) ∨
    (∃ locks st1 t, body st = (locks, .ok (st1, t)) ∧
       withTransaction st body = ⟨st1, locks, .ok t⟩) := by
  rcases hb : body st with ⟨locks, r⟩
  cases r with
  | error e =>
    exact Or.inl ⟨locks, e, rfl, by unfold withTransaction; rw [hb]⟩
  | ok p =>
    rcases p with ⟨st1, t⟩
    exact Or.inr ⟨locks, st1, t, rfl, by unfold withTransaction; rw [hb]⟩

theorem createTxBody_cases (f : StoreFaults) (fr : FreshData) (uid : UUID)
    (inp : CreateTransferInput) (q : Rat) (st : DBState) :
    (∃ locks e, createTxBody f fr uid inp q st = (locks, .error e)) ∨
    (∃ fa ta, getAccount st inp.fromAccountID = some fa ∧ fa.userID = uid ∧
      getAccount st inp.toAccountID = some ta ∧ fa.currency = ta.currency ∧
      fa.canDebit q = true ∧ ta.canCredit = true ∧
      createTxBody f fr uid inp q st =
        ([inp.fromAccountID, inp.toAccountID],
         .ok (execState fr inp q fa ta st, completedTransferOf fr inp q fa.currency))) := by
  unfold createTxBody
  by_cases h1 : f.getFrom
  · exact Or.inl ⟨[inp.fromAccountID], .internal, by simp [h1]⟩
  simp only [h1, if_false]
  rcases hfa : getAccount st inp.fromAccountID with _ | fa
  · simp only [hfa]
    exact Or.inl ⟨[inp.fromAccountID], .accountNotFound, rfl⟩
  simp only [hfa]
  by_cases h2 : fa.userID ≠ uid
  · exact Or.inl ⟨[inp.fromAccountID], .forbidden, by simp [h2]⟩
  simp only [h2, if_false]
  by_cases h3 : f.getTo
  · exact Or.inl ⟨[inp.fromAccountID, inp.toAccountID], .internal, by simp [h3]⟩
  simp only [h3, if_false]
  rcases hta : getAccount st inp.toAccountID with _ | ta
  · simp only [hta]
    exact Or.inl ⟨[inp.fromAccountID, inp.toAccountID], .accountNotFound, rfl⟩
  simp only [hta]
  by_cases h4 : fa.currency ≠ ta.currency
  · exact Or.inl ⟨[inp.fromAccountID, inp.toAccountID], .currencyMismatch, by simp [h4]⟩
  simp only [h4, if_false]
  by_cases h5 : ¬ fa.canDebit q
  · exact Or.inl ⟨[inp.fromAccountID, inp.toAccountID], .insufficientBalance, by simp [h5]⟩
  simp only [h5, if_false]
  by_cases h6 : ¬ ta.canCredit
  · exact Or.inl ⟨[inp.fromAccountID, inp.toAccountID], .accountInactive, by simp [h6]⟩
  simp only [h6, if_false]
  by_cases h7 : f.createTransfer
  · exact Or.inl ⟨[inp.fromAccountID, inp.toAccountID], .internal, by simp [h7]⟩
  simp only [h7, if_false]
  by_cases h8 : f.updateFromBalance
  · exact Or.inl ⟨[inp.fromAccountID, inp.toAccountID], .internal, by simp [h8]⟩
  simp only [h8, if_false]
  by_cases h9 : f.updateToBalance
  · exact Or.inl ⟨[inp.fromAccountID, inp.toAccountID], .internal, by simp [h9]⟩
  simp only [h9, if_false]
  by_cases h10 : f.createDebit
  · exact Or.inl ⟨[inp.fromAccountID, inp.toAccountID], .internal, by simp [h10]⟩
  simp only [h10, if_false]
  by_cases h11 : f.createCredit
  · exact Or.inl ⟨[inp.fromAccountID, inp.toAccountID], .internal, by simp [h11]⟩
  simp only [h11, if_false]
  by_cases h12 : f.updateStatus
  · exact Or.inl ⟨[inp.fromAccountID, inp.toAccountID], .internal, by simp [h12]⟩
  simp only [h12, if_false]
  refine Or.inr ⟨fa, ta, rfl, not_not.mp h2, rfl, not_not.mp h4,
    not_not.mp h5, not_not.mp h6, ?_⟩
  rfl

theorem createMain_cases (f : StoreFaults) (fr : FreshData) (uid : UUID)
    (inp : CreateTransferInput) (st : DBState) :
    ((createMain f fr uid inp st).state = st ∧
       ∃ e, (createMain f fr uid inp st).result = .error e) ∨
    (∃ q fa ta, inp.amount = some q ∧ ¬ q ≤ 0 ∧
      inp.fromAccountID ≠ inp.toAccountID ∧
      getAccount st inp.fromAccountID = some fa ∧ fa.userID = uid ∧
      getAccount st inp.toAccountID = some ta ∧ fa.currency = ta.currency ∧
      fa.canDebit q = true ∧ ta.canCredit = true ∧
      createMain f fr uid inp st =
        ⟨execState fr inp q fa ta st, [inp.fromAccountID, inp.toAccountID],
         .ok (completedTransferOf fr inp q fa.currency)⟩) := by
  unfold createMain
  rcases ha : inp.amount with _ | q
  · exact Or.inl ⟨rfl, .invalidAmount, rfl⟩
  simp only
  by_cases hq : q ≤ 0
  · exact Or.inl ⟨by simp [hq], .invalidAmount, by simp [hq]⟩
  simp only [hq, if_false]
  by_cases hft : inp.fromAccountID = inp.toAccountID
  · exact Or.inl ⟨by simp [hft], .sameAccount, by simp [hft]⟩
  simp only [hft, if_false]
  rcases createTxBody_cases f fr uid inp q st with ⟨locks, e, hb⟩ | ⟨fa, ta, c1, c2, c3, c4, c5, c6, hb⟩
  · refine Or.inl ⟨?_, e, ?_⟩ <;> unfold withTransaction <;> rw [hb]
  · refine Or.inr ⟨q, fa, ta, rfl, hq, hft, c1, c2, c3, c4, c5, c6, ?_⟩
    unfold withTransaction
    rw [hb]

theorem create_empty_key (f : StoreFaults) (fr : FreshData) (uid : UUID)
    (inp : CreateTransferInput) (st : DBState) (hk : inp.idempotencyKey = "") :
    create f fr uid inp st = createMain f fr uid inp st := by
  unfold create
  simp [hk]

theorem create_key_miss (f : StoreFaults) (fr : FreshData) (uid : UUID)
    (inp : CreateTransferInput) (st : DBState) (hk : inp.idempotencyKey ≠ "")
    (hf : f.idemLookup = false)
    (hl : getTransferByIdemKey st inp.idempotencyKey = none) :
    create f fr uid inp st = createMain f fr uid inp st := by
  unfold create
  simp [hk, hf, hl]

theorem create_idem_hit (f : StoreFaults) (fr : FreshData) (uid : UUID)
    (inp : CreateTransferInput) (st : DBState) (t0 : Transfer)
    (hk : inp.idempotencyKey ≠ "") (hf : f.idemLookup = false)
    (hl : getTransferByIdemKey st inp.idempotencyKey = some t0) :
    create f fr uid inp st = ⟨st, [], .ok t0⟩ := by
  unfold create
  simp [hk, hf, hl]

theorem create_idem_fault (f : StoreFaults) (fr : FreshData) (uid : UUID)
    (inp : CreateTransferInput) (st : DBState)
    (hk : inp.idempotencyKey ≠ "") (hf : f.idemLookup = true) :
    create f fr uid inp st = ⟨st, [], .error .internal⟩ := by
  unfold create
  simp [hk, hf]

theorem create_error_state (f : StoreFaults) (fr : FreshData) (uid : UUID)
    (inp : CreateTransferInput) (st : DBState) (e : AppError)
    (h : (create f fr uid inp st).result = .error e) :
    (create f fr uid inp st).state = st := by
  by_cases hk : inp.idempotencyKey = ""
  · rw [create_empty_key f fr uid inp st hk] at h ⊢
    rcases createMain_cases f fr uid inp st with ⟨h1, _⟩ | ⟨q, fa, ta, _, _, _, _, _, _, _, _, _, hm⟩
    · exact h1
    · rw [hm] at h
      simp at h
  · by_cases hf : f.idemLookup
    · rw [create_idem_fault f fr uid inp st hk hf]
    · rcases hl : getTransferByIdemKey st inp.idempotencyKey with _ | t0
      · rw [create_key_miss f fr uid inp st hk (by simpa using hf) hl] at h ⊢
        rcases createMain_cases f fr uid inp st with ⟨h1, _⟩ | ⟨q, fa, ta, _, _, _, _, _, _, _, _, _, hm⟩
        · exact h1
        · rw [hm] at h
          simp at h
      · rw [create_idem_hit f fr uid inp st t0 hk (by simpa using hf) hl] at h
        simp at h

theorem create_ok_exec (f : StoreFaults) (fr : FreshData) (uid : UUID)
    (inp : CreateTransferInput) (st : DBState) (t : Transfer)
    (hmiss : inp.idempotencyKey = "" ∨ getTransferByIdemKey st inp.idempotencyKey = none)
    (h : (create f fr uid inp st).result = .ok t) :
    ∃ q fa ta, inp.amount = some q ∧ ¬ q ≤ 0 ∧
      inp.fromAccountID ≠ inp.toAccountID ∧
      getAccount st inp.fromAccountID = some fa ∧ fa.userID = uid ∧
      getAccount st inp.toAccountID = some ta ∧ fa.currency = ta.currency ∧
      fa.canDebit q = true ∧ ta.canCredit = true ∧
      t = completedTransferOf fr inp q fa.currency ∧
      create f fr uid inp st =
        ⟨execState fr inp q fa ta st, [inp.fromAccountID, inp.toAccountID], .ok t⟩ := by
  have hcm : create f fr uid inp st = createMain f fr uid inp st := by
    rcases hmiss with hk | hl
    · exact create_empty_key f fr uid inp st hk
    · by_cases hk : inp.idempotencyKey = ""
      · exact create_empty_key f fr uid inp st hk
      · by_cases hf : f.idemLookup
        · rw [create_idem_fault f fr uid inp st hk hf] at h
          simp at h
        · exact create_key_miss f fr uid inp st hk (by simpa using hf) hl
  rw [hcm] at h ⊢
  rcases createMain_cases f fr uid inp st with ⟨_, e, he⟩ | ⟨q, fa, ta, c1, c2, c3, c4, c5, c6, c7, c8, c9, hm⟩
  · rw [he] at h
    simp at h
  · rw [hm] at h
    simp only [Except.ok.injEq] at h
    subst h
    exact ⟨q, fa, ta, c1, c2, c3, c4, c5, c6, c7, c8, c9, rfl, hm⟩

theorem getAccount_id (st : DBState) (x : UUID) (a : Account)
    (h : getAccount st x = some a) : a.id = x := by
  simpa using List.find?_some h

theorem getAccount_execState (fr : FreshData) (inp : CreateTransferInput) (q : Rat)
    (fa ta : Account) (st : DBState) (id : UUID) :
    getAccount (execState fr inp q fa ta st) id
      = getAccount (updateBalance (updateBalance st fa.id (fa.balance - q))
          ta.id (ta.balance + q)) id := rfl

theorem execState_transactions (fr : FreshData) (inp : CreateTransferInput) (q : Rat)
    (fa ta : Account) (st : DBState) :
    (execState fr inp q fa ta st).transactions
      = st.transactions ++ [debitTxOf fr fa ta q, creditTxOf fr fa ta q] := by
  unfold execState updateTransferStatus insertTransaction insertTransfer updateBalance
  simp

theorem execState_transfers (fr : FreshData) (inp : CreateTransferInput) (q : Rat)
    (fa ta : Account) (st : DBState) :
    (execState fr inp q fa ta st).transfers
      = st.transfers.map (fun t =>
          if t.id == fr.transferID
          then { t with status := .completed, completedAt := some fr.completedAt }
          else t)
        ++ [completedTransferOf fr inp q fa.currency] := by
  unfold execState updateTransferStatus insertTransaction insertTransfer updateBalance
  simp [List.map_append, pendingTransferOf, completedTransferOf]

theorem create_state_cases (f : StoreFaults) (fr : FreshData) (uid : UUID)
    (inp : CreateTransferInput) (st : DBState) :
    (create f fr uid inp st).state = st ∨
    ∃ q fa ta, ¬ q ≤ 0 ∧
      getAccount st inp.fromAccountID = some fa ∧
      getAccount st inp.toAccountID = some ta ∧
      fa.canDebit q = true ∧
      (create f fr uid inp st).state = execState fr inp q fa ta st := by
  rcases hres : (create f fr uid inp st).result with e | t
  · exact Or.inl (create_error_state f fr uid inp st e hres)
  · by_cases hk : inp.idempotencyKey = ""
    · rcases create_ok_exec f fr uid inp st t (Or.inl hk) hres with
        ⟨q, fa, ta, _, c2, _, c4, _, c6, _, c8, _, _, hc⟩
      exact Or.inr ⟨q, fa, ta, c2, c4, c6, c8, by rw [hc]⟩
    · by_cases hf : f.idemLookup
      · rw [create_idem_fault f fr uid inp st hk hf] at hres
        simp at hres
      · rcases hl : getTransferByIdemKey st inp.idempotencyKey with _ | t0
        · rcases create_ok_exec f fr uid inp st t (Or.inr hl) hres with
            ⟨q, fa, ta, _, c2, _, c4, _, c6, _, c8, _, _, hc⟩
          exact Or.inr ⟨q, fa, ta, c2, c4, c6, c8, by rw [hc]⟩
        · rw [create_idem_hit f fr uid inp st t0 hk (by simpa using hf) hl]
          exact Or.inl rfl

theorem getTransferByIdemKey_execState (fr : FreshData) (inp : CreateTransferInput)
    (q : Rat) (fa ta : Account) (st : DBState)
    (hk : inp.idempotencyKey ≠ "")
    (hl : getTransferByIdemKey st inp.idempotencyKey = none) :
    getTransferByIdemKey (execState fr inp q fa ta st) inp.idempotencyKey
      = some (completedTransferOf fr inp q fa.currency) := by
  unfold getTransferByIdemKey at hl ⊢
  rw [execState_transfers, List.find?_append]
  have h1 : List.find? (fun t => t.idempotencyKey == some inp.idempotencyKey)
      (st.transfers.map (fun t =>
        if t.id == fr.transferID
        then { t with status := .completed, completedAt := some fr.completedAt }
        else t)) = none := by
    apply List.find?_eq_none.mpr
    intro x hx
    rcases List.mem_map.mp hx with ⟨t0, ht0, rfl⟩
    have hnot := List.find?_eq_none.mp hl t0 ht0
    by_cases hid : t0.id == fr.transferID
    · simpa [hid] using hnot
    · simpa [hid] using hnot
  rw [h1]
  simp [List.find?, completedTransferOf, pendingTransferOf, hk]

/-! Claim theorems. -/

/-- C1: whenever a Create invocation fails (any typed failure, including a
store fault injected at any call site inside the atomic scope), the
Unit-of-Work rolls back every write: the post-state of accounts, transfers
and transactions equals the pre-state, and, the transfer identifier being
fresh, no transfer record for this invocation is observable afterwards (in
particular no pending one). -/
theorem create_failure_rolls_back (f : StoreFaults) (fr : FreshData) (uid : UUID)
    (inp : CreateTransferInput) (st : DBState) (e : AppError)
    (h : (create f fr uid inp st).result = .error e)
    (hfresh : ∀ tr ∈ st.transfers, tr.id ≠ fr.transferID) :
    (create f fr uid inp st).state = st ∧
    getTransferByID (create f fr uid inp st).state fr.transferID = none := by
  have hs := create_error_state f fr uid inp st e h
  refine ⟨hs, ?_⟩
  rw [hs]
  unfold getTransferByID
  exact List.find?_eq_none.mpr (fun tr htr => by simpa using hfresh tr htr)

/-- Witness for C1: an insufficient-balance failure at a concrete store
leaves the store untouched and records no transfer. -/
theorem create_failure_rolls_back_witness :
    (create noFaults frW 10 ⟨1, 2, some 400, ""⟩ stW).state = stW ∧
    getTransferByID (create noFaults frW 10 ⟨1, 2, some 400, ""⟩ stW).state
      frW.transferID = none :=
  create_failure_rolls_back noFaults frW 10 ⟨1, 2, some 400, ""⟩ stW
    .insufficientBalance (by decide) (by decide)

/-- C9: when the request carries a non-empty idempotency key for which a
transfer is already stored, Create returns that stored transfer immediately:
the store is unchanged, no lock is taken, and no validation of the payload or
of the requester happens (the amount may be unparsable, the two accounts may
coincide, and the requester may own neither account of the stored transfer). -/
theorem create_idem_hit_short_circuit (f : StoreFaults) (fr : FreshData) (uid : UUID)
    (inp : CreateTransferInput) (st : DBState) (t0 : Transfer)
    (hk : inp.idempotencyKey ≠ "") (hf : f.idemLookup = false)
    (hl : getTransferByIdemKey st inp.idempotencyKey = some t0) :
    create f fr uid inp st = ⟨st, [], .ok t0⟩ :=
  create_idem_hit f fr uid inp st t0 hk hf hl

/-- Witness for C9: requester 99 owns neither account, the amount is
unparsable and source equals destination, yet the stored transfer under key
k1 is returned and nothing changes. -/
theorem create_idem_hit_short_circuit_witness :
    create noFaults frW 99 ⟨1, 1, none, "k1"⟩ stPrev = ⟨stPrev, [], .ok tPrev⟩ :=
  create_idem_hit_short_circuit noFaults frW 99 ⟨1, 1, none, "k1"⟩ stPrev tPrev
    (by decide) (by decide) (by decide)

/-- Counterexample to C2 as stated: a Create invocation that completes
successfully because its idempotency key matches a stored transfer changes no
balance at all, so the new source balance does not equal the old one minus
the (positive) transfer amount. -/
theorem create_success_balances_counterexample :
    (create noFaults frW 10 ⟨1, 2, some 40, "k1"⟩ stPrev).result = .ok tPrev ∧
    getAccount stPrev 1 = some accX ∧
    getAccount (create noFaults frW 10 ⟨1, 2, some 40, "k1"⟩ stPrev).state 1
      = some accX ∧
    tPrev.amount = 40 ∧
    accX.balance ≠ accX.balance - tPrev.amount := by
  refine ⟨by decide, by decide, by decide, by decide, ?_⟩
  show (100 : Rat) ≠ 100 - 40
  norm_num

/-- C2 (amended): for every Create invocation that completes successfully by
executing the transfer (its idempotency key does not match a stored
transfer), the new source balance is the old one minus the amount, the new
destination balance is the old one plus the amount, the balance sum is
preserved, and no other account changes. -/
theorem create_success_balances (f : StoreFaults) (fr : FreshData) (uid : UUID)
    (inp : CreateTransferInput) (st : DBState) (t : Transfer)
    (hmiss : inp.idempotencyKey = "" ∨ getTransferByIdemKey st inp.idempotencyKey = none)
    (h : (create f fr uid inp st).result = .ok t) :
    ∃ fa ta, getAccount st inp.fromAccountID = some fa ∧
      getAccount st inp.toAccountID = some ta ∧
      getAccount (create f fr uid inp st).state inp.fromAccountID
        = some { fa with balance := fa.balance - t.amount } ∧
      getAccount (create f fr uid inp st).state inp.toAccountID
        = some { ta with balance := ta.balance + t.amount } ∧
      (fa.balance - t.amount) + (ta.balance + t.amount) = fa.balance + ta.balance ∧
      (∀ id, id ≠ inp.fromAccountID → id ≠ inp.toAccountID →
        getAccount (create f fr uid inp st).state id = getAccount st id) := by
  rcases create_ok_exec f fr uid inp st t hmiss h with
    ⟨q, fa, ta, _, _, hft, hfa, _, hta, _, _, _, ht, hc⟩
  have hfa_id : fa.id = inp.fromAccountID := getAccount_id st _ fa hfa
  have hta_id : ta.id = inp.toAccountID := getAccount_id st _ ta hta
  have hamount : t.amount = q := by rw [ht]; rfl
  have hstate : (create f fr uid inp st).state = execState fr inp q fa ta st := by
    rw [hc]
  refine ⟨fa, ta, hfa, hta, ?_, ?_, by ring, ?_⟩
  · rw [hstate, getAccount_execState]
    rw [getAccount_updateBalance_ne _ _ _ _ (by rw [hta_id]; exact hft)]
    rw [← hfa_id, getAccount_updateBalance_eq, hfa_id, hfa]
    simp [hamount, hfa_id]
  · rw [hstate, getAccount_execState, ← hta_id, getAccount_updateBalance_eq]
    rw [getAccount_updateBalance_ne _ _ _ _ (by rw [hfa_id, hta_id]; exact hft.symm)]
    rw [hta_id, hta]
    simp [hamount, hta_id]
  · intro id hne1 hne2
    rw [hstate, getAccount_execState]
    rw [getAccount_updateBalance_ne _ _ _ _ (by rw [hta_id]; exact hne2)]
    rw [getAccount_updateBalance_ne _ _ _ _ (by rw [hfa_id]; exact hne1)]

/-- Witness for C2: the concrete 40 USD transfer from account 1 to account 2
moves the balances 100 and 0 to 60 and 40. -/
theorem create_success_balances_witness :
    ∃ fa ta, getAccount stW 1 = some fa ∧
      getAccount stW 2 = some ta ∧
      getAccount (create noFaults frW 10 ⟨1, 2, some 40, "k1"⟩ stW).state 1
        = some { fa with balance := fa.balance - tDone.amount } ∧
      getAccount (create noFaults frW 10 ⟨1, 2, some 40, "k1"⟩ stW).state 2
        = some { ta with balance := ta.balance + tDone.amount } ∧
      (fa.balance - tDone.amount) + (ta.balance + tDone.amount)
        = fa.balance + ta.balance ∧
      (∀ id, id ≠ (1 : UUID) → id ≠ (2 : UUID) →
        getAccount (create noFaults frW 10 ⟨1, 2, some 40, "k1"⟩ stW).state id
          = getAccount stW id) :=
  create_success_balances noFaults frW 10 ⟨1, 2, some 40, "k1"⟩ stW tDone
    (Or.inr (by decide)) (by decide)

/-- Counterexample to C6 as stated: a Create invocation that completes
successfully through the idempotency fast path appends no Transaction
records at all. -/
theorem create_appends_two_ledger_rows_counterexample :
    (create noFaults frW 10 ⟨1, 2, some 40, "k1"⟩ stPrev).result = .ok tPrev ∧
    (create noFaults frW 10 ⟨1, 2, some 40, "k1"⟩ stPrev).state.transactions
      = stPrev.transactions ∧
    stPrev.transactions.length = 0 := by
  refine ⟨by decide, by decide, by decide⟩

/-- C6 (amended): every Create invocation that completes successfully by
executing the transfer appends exactly the debit row on the source (amount,
balance_after the new source balance, reference the transfer ID) and the
credit row on the destination (same amount, balance_after the new destination
balance, same reference), in this order; every failing invocation appends
none. -/
theorem create_appends_two_ledger_rows (f : StoreFaults) (fr : FreshData) (uid : UUID)
    (inp : CreateTransferInput) (st : DBState)
    (hmiss : inp.idempotencyKey = "" ∨ getTransferByIdemKey st inp.idempotencyKey = none) :
    (∀ t, (create f fr uid inp st).result = .ok t →
      ∃ fa ta, getAccount st inp.fromAccountID = some fa ∧
        getAccount st inp.toAccountID = some ta ∧
        (create f fr uid inp st).state.transactions
          = st.transactions ++
            [{ id := fr.debitTxID, accountID := fa.id, type := .debit,
               amount := t.amount, balanceAfter := fa.balance - t.amount,
               description := "Transfer to account " ++ ta.accountNumber,
               referenceID := some t.id, createdAt := fr.debitCreatedAt },
             { id := fr.creditTxID, accountID := ta.id, type := .credit,
               amount := t.amount, balanceAfter := ta.balance + t.amount,
               description := "Transfer from account " ++ fa.accountNumber,
               referenceID := some t.id, createdAt := fr.creditCreatedAt }]) ∧
    (∀ e, (create f fr uid inp st).result = .error e →
      (create f fr uid inp st).state.transactions = st.transactions) := by
  constructor
  · intro t h
    rcases create_ok_exec f fr uid inp st t hmiss h with
      ⟨q, fa, ta, _, _, _, hfa, _, hta, _, _, _, ht, hc⟩
    have hamount : t.amount = q := by rw [ht]; rfl
    have hid : t.id = fr.transferID := by rw [ht]; rfl
    refine ⟨fa, ta, hfa, hta, ?_⟩
    have hstate : (create f fr uid inp st).state = execState fr inp q fa ta st := by
      rw [hc]
    rw [hstate, execState_transactions, hamount, hid]
    rfl
  · intro e h
    rw [create_error_state f fr uid inp st e h]

/-- Witness for C6: the concrete 40 USD transfer appends precisely its debit
and credit rows, and the insufficient-balance failure appends nothing. -/
theorem create_appends_two_ledger_rows_witness :
    (∀ t, (create noFaults frW 10 ⟨1, 2, some 40, ""⟩ stW).result = .ok t →
      ∃ fa ta, getAccount stW 1 = some fa ∧
        getAccount stW 2 = some ta ∧
        (create noFaults frW 10 ⟨1, 2, some 40, ""⟩ stW).state.transactions
          = stW.transactions ++
            [{ id := frW.debitTxID, accountID := fa.id, type := .debit,
               amount := t.amount, balanceAfter := fa.balance - t.amount,
               description := "Transfer to account " ++ ta.accountNumber,
               referenceID := some t.id, createdAt := frW.debitCreatedAt },
             { id := frW.creditTxID, accountID := ta.id, type := .credit,
               amount := t.amount, balanceAfter := ta.balance + t.amount,
               description := "Transfer from account " ++ fa.accountNumber,
               referenceID := some t.id, createdAt := frW.creditCreatedAt }]) ∧
    (∀ e, (create noFaults frW 10 ⟨1, 2, some 40, ""⟩ stW).result = .error e →
      (create noFaults frW 10 ⟨1, 2, some 40, ""⟩ stW).state.transactions
        = stW.transactions) :=
  create_appends_two_ledger_rows noFaults frW 10 ⟨1, 2, some 40, ""⟩ stW
    (Or.inl rfl)

/-- C7: non-negativity is an invariant of Create: if every account balance is
nonnegative before an invocation, every account balance is nonnegative after
it, whether the invocation succeeds or fails — the debit requires an active
source with balance at least the amount, and the credit adds a positive
amount. -/
theorem create_preserves_nonneg (f : StoreFaults) (fr : FreshData) (uid : UUID)
    (inp : CreateTransferInput) (st : DBState)
    (h0 : ∀ a ∈ st.accounts, 0 ≤ a.balance) :
    ∀ a ∈ (create f fr uid inp st).state.accounts, 0 ≤ a.balance := by
  rcases create_state_cases f fr uid inp st with hs | ⟨q, fa, ta, hq, hfa, hta, hdeb, hs⟩
  · rw [hs]
    exact h0
  · rw [hs]
    have haccts : (execState fr inp q fa ta st).accounts
        = (st.accounts.map (fun a =>
            if a.id == fa.id then { a with balance := fa.balance - q } else a)).map
          (fun a => if a.id == ta.id then { a with balance := ta.balance + q } else a) := rfl
    rw [haccts]
    intro a ha
    rcases List.mem_map.mp ha with ⟨b1, hb1, rfl⟩
    rcases List.mem_map.mp hb1 with ⟨b0, hb0, rfl⟩
    have hqpos : 0 < q := lt_of_not_le hq
    have hdeb2 : q ≤ fa.balance := by
      unfold Account.canDebit at hdeb
      simp only [Bool.and_eq_true, decide_eq_true_eq] at hdeb
      exact hdeb.2
    have hta0 : 0 ≤ ta.balance := h0 ta (List.mem_of_find?_eq_some hta)
    by_cases hco : ((if b0.id == fa.id then { b0 with balance := fa.balance - q } else b0).id
        == ta.id) = true
    · simp only [hco, if_true]
      have : (0 : Rat) ≤ ta.balance + q := by linarith
      exact this
    · simp only [hco, if_false]
      by_cases hci : (b0.id == fa.id) = true
      · simp only [hci, if_true]
        have : (0 : Rat) ≤ fa.balance - q := by linarith
        exact this
      · simp only [hci, if_false]
        exact h0 b0 hb0

/-- Witness for C7: the concrete two-account store with balances 100 and 0
keeps all balances nonnegative across the successful 40 USD transfer. -/
theorem create_preserves_nonneg_witness :
    (∀ a ∈ stW.accounts, 0 ≤ a.balance) ∧
    (∀ a ∈ (create noFaults frW 10 ⟨1, 2, some 40, ""⟩ stW).state.accounts,
      0 ≤ a.balance) :=
  ⟨by decide,
   create_preserves_nonneg noFaults frW 10 ⟨1, 2, some 40, ""⟩ stW (by decide)⟩

/-- C3: starting from a store with no transfer under the (non-empty) key and
no ledger row referencing the fresh transfer ID, if a first Create with that
key succeeds returning t, then a second Create with the same key — same or
different payload, requester and fresh data — returns exactly t, changes
nothing and takes no lock, and the store holds exactly the one pair of
Transaction rows referencing t. -/
theorem create_idempotent_replay (f1 f2 : StoreFaults) (fr1 fr2 : FreshData)
    (uid1 uid2 : UUID) (inp1 inp2 : CreateTransferInput) (st : DBState) (t : Transfer)
    (hkey : inp1.idempotencyKey ≠ "")
    (hkey2 : inp2.idempotencyKey = inp1.idempotencyKey)
    (hf2 : f2.idemLookup = false)
    (hnone : getTransferByIdemKey st inp1.idempotencyKey = none)
    (hclean : ∀ tx ∈ st.transactions, tx.referenceID ≠ some fr1.transferID)
    (h1 : (create f1 fr1 uid1 inp1 st).result = .ok t) :
    create f2 fr2 uid2 inp2 (create f1 fr1 uid1 inp1 st).state
        = ⟨(create f1 fr1 uid1 inp1 st).state, [], .ok t⟩ ∧
    ((create f1 fr1 uid1 inp1 st).state.transactions.filter
        (fun tx => tx.referenceID == some t.id)).length = 2 := by
  rcases create_ok_exec f1 fr1 uid1 inp1 st t (Or.inr hnone) h1 with
    ⟨q, fa, ta, _, _, _, _, _, _, _, _, _, ht, hc⟩
  have hstate : (create f1 fr1 uid1 inp1 st).state = execState fr1 inp1 q fa ta st := by
    rw [hc]
  have hid : t.id = fr1.transferID := by rw [ht]; rfl
  constructor
  · have hl2 : getTransferByIdemKey (create f1 fr1 uid1 inp1 st).state
        inp2.idempotencyKey = some t := by
      rw [hstate, hkey2, ht]
      exact getTransferByIdemKey_execState fr1 inp1 q fa ta st hkey hnone
    exact create_idem_hit f2 fr2 uid2 inp2 _ t (by rw [hkey2]; exact hkey) hf2 hl2
  · rw [hstate, execState_transactions, List.filter_append]
    have hnil : st.transactions.filter (fun tx => tx.referenceID == some t.id) = [] := by
      rw [List.filter_eq_nil_iff]
      intro tx htx
      rw [hid]
      simpa using hclean tx htx
    rw [hnil, hid]
    simp [debitTxOf, creditTxOf]

/-- Witness for C3: the concrete first call stores tDone under key k1; the
replay with a different payload and requester returns tDone unchanged, and
exactly the two rows referencing it exist. -/
theorem create_idempotent_replay_witness :
    create noFaults frW 99 ⟨7, 8, none, "k1"⟩
        (create noFaults frW 10 ⟨1, 2, some 40, "k1"⟩ stW).state
      = ⟨(create noFaults frW 10 ⟨1, 2, some 40, "k1"⟩ stW).state, [], .ok tDone⟩ ∧
    ((create noFaults frW 10 ⟨1, 2, some 40, "k1"⟩ stW).state.transactions.filter
        (fun tx => tx.referenceID == some tDone.id)).length = 2 :=
  create_idempotent_replay noFaults noFaults frW frW 10 99
    ⟨1, 2, some 40, "k1"⟩ ⟨7, 8, none, "k1"⟩ stW tDone
    (by decide) (by decide) (by decide) (by decide) (by decide) (by decide)

/-- C4: the lock order of Create follows the call order, not the account
identifiers: the transfer from account 2 to account 1 acquires the
row locks as [2, 1] — the larger identifier first — while the opposite
transfer acquires [1, 2], so two transfers in opposite directions between
the same pair of accounts acquire their locks in opposite orders. -/
theorem create_lock_order_follows_call_order :
    (create noFaults frW 20 ⟨2, 1, some 1, ""⟩ stW).locks = [2, 1] ∧
    (create noFaults frW 10 ⟨1, 2, some 1, ""⟩ stW).locks = [1, 2] ∧
    (1 : UUID) < 2 := by
  refine ⟨by decide, by decide, by decide⟩

/-- Counterexample to C5 as stated: the destination account 3 is missing from
the store, yet Create fails with Forbidden (requester 20 does not own source
account 1), not AccountNotFound — the destination-missing check runs after
the ownership check. -/
theorem create_missing_account_counterexample :
    getAccount stW 3 = none ∧
    (create noFaults frW 20 ⟨1, 3, some 1, ""⟩ stW).result = .error .forbidden ∧
    .error .forbidden ≠ (Except.error .accountNotFound : Except AppError Transfer) := by
  refine ⟨by decide, by decide, by decide⟩

/-- C5 (amended): with no store faults and a request that passes the
idempotency, amount and same-account checks, a missing source account always
yields AccountNotFound (regardless of ownership, since the source is fetched
before any ownership check), while a missing destination yields
AccountNotFound only when the requester owns the source (the ownership check
precedes the destination fetch). -/
theorem create_missing_account_errors (fr : FreshData) (uid : UUID)
    (inp : CreateTransferInput) (st : DBState) (q : Rat)
    (hmiss : inp.idempotencyKey = "" ∨ getTransferByIdemKey st inp.idempotencyKey = none)
    (ha : inp.amount = some q) (hq : ¬ q ≤ 0)
    (hft : inp.fromAccountID ≠ inp.toAccountID) :
    (getAccount st inp.fromAccountID = none →
      (create noFaults fr uid inp st).result = .error .accountNotFound) ∧
    (∀ fa, getAccount st inp.fromAccountID = some fa → fa.userID = uid →
      getAccount st inp.toAccountID = none →
      (create noFaults fr uid inp st).result = .error .accountNotFound) := by
  have hcm : create noFaults fr uid inp st = createMain noFaults fr uid inp st := by
    rcases hmiss with hk | hl
    · exact create_empty_key noFaults fr uid inp st hk
    · by_cases hk : inp.idempotencyKey = ""
      · exact create_empty_key noFaults fr uid inp st hk
      · exact create_key_miss noFaults fr uid inp st hk rfl hl
  rw [hcm]
  unfold createMain
  constructor
  · intro hnone
    simp only [ha, hq, if_false, hft, if_false]
    unfold withTransaction createTxBody
    simp [noFaults, hnone]
  · intro fa hfa hown hnone
    simp only [ha, hq, if_false, hft, if_false]
    unfold withTransaction createTxBody
    simp [noFaults, hfa, hown, hnone]

/-- Witness for C5: at the concrete store, a transfer from the owned account
1 to the missing account 3 fails AccountNotFound, and so would one from a
missing source. -/
theorem create_missing_account_errors_witness :
    (getAccount stW 1 = none →
      (create noFaults frW 10 ⟨1, 3, some 1, ""⟩ stW).result
        = .error .accountNotFound) ∧
    (∀ fa, getAccount stW 1 = some fa → fa.userID = 10 →
      getAccount stW 3 = none →
      (create noFaults frW 10 ⟨1, 3, some 1, ""⟩ stW).result
        = .error .accountNotFound) :=
  create_missing_account_errors frW 10 ⟨1, 3, some 1, ""⟩ stW 1
    (Or.inl rfl) rfl (by decide) (by decide)

theorem getByUserID_ok_elim (st : DBState) (uid : UUID) (page pageSize : Int)
    (ts : List Transfer) (n : Int)
    (h : getByUserID false st uid page pageSize = .ok (ts, n)) :
    ts = repoGetTransfersByUserID st uid
        (if pageSize < 1 || pageSize > 100 then (10 : Int) else pageSize).toNat
        (((if page < 1 then (1 : Int) else page) - 1)
          * (if pageSize < 1 || pageSize > 100 then (10 : Int) else pageSize)).toNat ∧
    n = (ts.length : Int) := by
  unfold getByUserID at h
  simp only [Bool.false_eq_true, if_false, Except.ok.injEq, Prod.mk.injEq] at h
  obtain ⟨h1, h2⟩ := h
  subst h1
  exact ⟨rfl, h2.symm⟩

theorem getByUserID_page_clamp (fault : Bool) (st : DBState) (uid : UUID)
    (page pageSize : Int) :
    getByUserID fault st uid page pageSize
      = getByUserID fault st uid (max page 1) pageSize := by
  unfold getByUserID
  by_cases hp : page < 1
  · have h1 : max page 1 = 1 := by omega
    rw [h1]
    simp [hp]
  · have h1 : max page 1 = page := by omega
    rw [h1]

theorem getByUserID_pageSize_default (fault : Bool) (st : DBState) (uid : UUID)
    (page pageSize : Int) (h : pageSize < 1 ∨ 100 < pageSize) :
    getByUserID fault st uid page pageSize = getByUserID fault st uid page 10 := by
  unfold getByUserID
  have h1 : (pageSize < 1 || pageSize > 100) = true := by
    rcases h with h | h <;> simp [h]
  have h2 : ((10 : Int) < 1 || (10 : Int) > 100) = false := by decide
  simp [h1, h2]

/-- Counterexample to C8 as stated: eleven transfers touch the requester's
account, yet a request with pageSize 101 returns a 10-row page (pageSize
falls back to the default 10), which differs from the behaviour at
pageSize 100; likewise pageSize 0 does not behave as pageSize 1. -/
theorem getByUserID_clamp_counterexample :
    Except.map Prod.snd (getByUserID false stList 10 1 101) = .ok 10 ∧
    getByUserID false stList 10 1 101 ≠ getByUserID false stList 10 1 100 ∧
    getByUserID false stList 10 1 0 ≠ getByUserID false stList 10 1 1 := by
  refine ⟨by decide, by decide, by decide⟩

/-- C8 (amended): ListByUser returns transfers touching an account owned by
the requester, sorted newest first; page is clamped into 1.. (page below 1
behaves as page 1), while a pageSize outside 1..100 is replaced by the
default 10 (not clamped to the nearer bound). -/
theorem getByUserID_claims (st : DBState) (uid : UUID) (page pageSize : Int)
    (ts : List Transfer) (n : Int)
    (h : getByUserID false st uid page pageSize = .ok (ts, n)) :
    (∀ t ∈ ts, touchesUser st uid t = true) ∧
    List.Sorted newerFirst ts ∧
    getByUserID false st uid page pageSize
      = getByUserID false st uid (max page 1) pageSize ∧
    ((pageSize < 1 ∨ 100 < pageSize) →
      getByUserID false st uid page pageSize = getByUserID false st uid page 10) := by
  obtain ⟨hts, hn⟩ := getByUserID_ok_elim st uid page pageSize ts n h
  refine ⟨?_, ?_, getByUserID_page_clamp false st uid page pageSize,
    fun hs => getByUserID_pageSize_default false st uid page pageSize hs⟩
  · intro t htm
    rw [hts] at htm
    unfold repoGetTransfersByUserID at htm
    have h1 := List.mem_of_mem_take htm
    have h2 := List.mem_of_mem_drop h1
    have h3 := (List.mem_insertionSort newerFirst).mp h2
    exact List.of_mem_filter h3
  · rw [hts]
    unfold repoGetTransfersByUserID
    exact List.Pairwise.sublist
      (List.Sublist.trans (List.take_sublist _ _) (List.drop_sublist _ _))
      (List.sorted_insertionSort newerFirst _)

/-- Witness for C8: a concrete request with pageSize 101 against the
two-account store satisfies the amended clamping and ordering facts. -/
theorem getByUserID_claims_witness :
    (∀ t ∈ ([] : List Transfer), touchesUser stW 10 t = true) ∧
    List.Sorted newerFirst ([] : List Transfer) ∧
    getByUserID false stW 10 1 101 = getByUserID false stW 10 (max 1 1) 101 ∧
    (((101 : Int) < 1 ∨ (100 : Int) < 101) →
      getByUserID false stW 10 1 101 = getByUserID false stW 10 1 10) :=
  getByUserID_claims stW 10 1 101 [] 0 (by decide)

/-- Counterexample to C10 as stated: at pageSize 0 the reported total is 10
(the default page is filled from the eleven matching transfers), which is
not at most the requested pageSize. -/
theorem getByUserID_total_counterexample :
    Except.map Prod.snd (getByUserID false stList 10 1 0) = .ok 10 ∧
    ¬ ((10 : Int) ≤ 0) := by
  refine ⟨by decide, by decide⟩

/-- C10 (amended): the total returned by ListByUser equals the length of the
returned page; for every pageSize at least 1 it is at most pageSize, and when
more than pageSize transfers match, the reported total understates the true
matching count. -/
theorem getByUserID_total_is_page_length (st : DBState) (uid : UUID)
    (page pageSize : Int) (ts : List Transfer) (n : Int)
    (h : getByUserID false st uid page pageSize = .ok (ts, n)) :
    n = (ts.length : Int) ∧
    (1 ≤ pageSize → n ≤ pageSize) ∧
    (1 ≤ pageSize → pageSize < ((matchingTransfers st uid).length : Int) →
      n < ((matchingTransfers st uid).length : Int)) := by
  obtain ⟨hts, hn⟩ := getByUserID_ok_elim st uid page pageSize ts n h
  have hlen : ts.length
      ≤ (if pageSize < 1 || pageSize > 100 then (10 : Int) else pageSize).toNat := by
    rw [hts]
    unfold repoGetTransfersByUserID
    exact List.length_take_le _ _
  have hbound : 1 ≤ pageSize → n ≤ pageSize := by
    intro hp
    by_cases h100 : pageSize > 100
    · have he : (if pageSize < 1 || pageSize > 100 then (10 : Int) else pageSize).toNat
          = 10 := by
        have h1 : ¬ (pageSize < 1) := by omega
        simp [h1, h100]
      rw [he] at hlen
      omega
    · have he : (if pageSize < 1 || pageSize > 100 then (10 : Int) else pageSize).toNat
          = pageSize.toNat := by
        have h1 : ¬ (pageSize < 1) := by omega
        simp [h1, h100]
      rw [he] at hlen
      omega
  exact ⟨hn, hbound, fun hp hm => lt_of_le_of_lt (hbound hp) hm⟩

/-- Witness for C10: a concrete request at pageSize 5 against the two-account
store reports total 0, the length of its empty page. -/
theorem getByUserID_total_is_page_length_witness :
    (0 : Int) = (([] : List Transfer).length : Int) ∧
    ((1 : Int) ≤ 5 → (0 : Int) ≤ 5) ∧
    ((1 : Int) ≤ 5 → (5 : Int) < ((matchingTransfers stW 10).length : Int) →
      (0 : Int) < ((matchingTransfers stW 10).length : Int)) :=
  getByUserID_total_is_page_length stW 10 1 5 [] 0 (by decide)
